import Mathlib

/-!
Verification of the WOPI proof-key subsystem of this repository
(`src/wsd/ProofKey.cpp`), against its natural-language specification.

Byte strings are modelled as `List Nat` (each element a byte value).
Machine integers are modelled as `Nat`/`Int` with explicit truncation
(`% 2^w`) where the C++ code performs a narrowing conversion.

The code calls into the Poco library; those calls are embedded according to
Poco's documented behaviour:
* `Poco::BinaryWriter` with `NETWORK_BYTE_ORDER` writes integers in
  big-endian byte order; its `<<` operator for `std::string` first writes
  the string length in Poco's 7-bit variable-length encoding
  (`BinaryWriter::write7BitEncoded`) and then the raw bytes.
* `Poco::URI::decode` (with `plusAsSpace = false`, the default used here)
  percent-decodes, and throws `URISyntaxException` on a `%` not followed by
  two hex digits; a thrown exception is modelled as `none`.
* `Poco::Base64Encoder` emits the standard base64 alphabet with `=`
  padding, inserting a CR LF line break after every 72 output characters;
  `Poco::OutputLineEndingConverter` with new-line text `""` replaces every
  CR, LF or CR LF in its input with the empty string.
* `Poco::Crypto::RSADigestEngine` accumulates `update` data into an inner
  SHA-256 engine; `digest()` caches the digest on first use (finalizing and
  resetting the inner engine) and `signature()` caches the raw RSA
  signature on first use.  The cryptographic primitives themselves
  (SHA-256, RSA signing) are abstracted as function parameters.
`assert` statements in the C++ are treated as documentation of intent, not
as part of the computed result.
-/

/-! ## Byte-level primitives -/

/-- Big-endian bytes of `x`, `w` bytes wide (the bytes written by
`Poco::BinaryWriter` for a `w`-byte integer under `NETWORK_BYTE_ORDER`;
values wider than `w` bytes are truncated mod `2^(8*w)`, matching the
narrowing casts in the source). -/
def beBytes : Nat → Nat → List Nat
  | 0, _ => []
  | w + 1, x => beBytes w (x / 256) ++ [x % 256]

/-- The 8 bytes written by `Poco::BinaryWriter` for an `int64_t` under
`NETWORK_BYTE_ORDER`: big-endian two's complement. -/
def int64BE (t : Int) : List Nat := beBytes 8 (t % 18446744073709551616).toNat

/-- `Poco::BinaryWriter::write7BitEncoded`: a do-while loop emitting 7 bits
per byte, least-significant group first, high bit set on all but the last
byte.  Implemented with a fuel argument (`fuel = n` always suffices since
the remaining value shrinks by a factor of 128 per step). -/
def write7BitAux : Nat → Nat → List Nat
  | 0, n => [n % 128]
  | fuel + 1, n =>
    if n / 128 = 0 then [n % 128] else (n % 128 + 128) :: write7BitAux fuel (n / 128)

/-- The bytes `Poco::BinaryWriter` writes for a `std::string` value before
the raw character data: the 7-bit encoded length. -/
def write7Bit (n : Nat) : List Nat := write7BitAux n n

/-- Value of an ASCII hex digit, as in the digit tests of
`Poco::URI::decode`; `none` means "not a hex digit" (which makes the
decoder throw). -/
def hexDigitVal (c : Nat) : Option Nat :=
  if 48 ≤ c ∧ c ≤ 57 then some (c - 48)
  else if 65 ≤ c ∧ c ≤ 70 then some (c - 65 + 10)
  else if 97 ≤ c ∧ c ≤ 102 then some (c - 97 + 10)
  else none

/-- `Poco::URI::decode(str, out)` with the default `plusAsSpace = false`
(so the `+`-in-query special case never fires): every `%` must be followed
by two hex digits and is replaced by the encoded byte, all other bytes are
copied through unchanged.  `none` models the thrown
`URISyntaxException`. -/
def uriDecode : List Nat → Option (List Nat)
  | [] => some []
  | [37] => none
  | [37, _] => none
  | 37 :: hi :: lo :: rest =>
    match hexDigitVal hi, hexDigitVal lo with
    | some h, some l => Option.map (fun ds => (16 * h + l) :: ds) (uriDecode rest)
    | _, _ => none
  | c :: rest => Option.map (fun ds => c :: ds) (uriDecode rest)

/-! ## BlobEncoder (`getBytesLE`, `RSA2CapiBlob`) -/

/-- `getBytesLE(bytesInSystemOrder, n)` from the source: given the bytes of
a value as laid out in host memory, return them in little-endian order — a
straight copy on a little-endian host, a reversed copy on a big-endian
host.  The host byte order is an explicit parameter of the model. -/
def getBytesLE (hostLittleEndian : Bool) (bytesInSystemOrder : List Nat) : List Nat :=
  if hostLittleEndian then bytesInSystemOrder else bytesInSystemOrder.reverse

/-- The four little-endian bytes of a `std::uint32_t` (the value is
truncated mod `2^32` by the byte extractions, matching the narrowing
conversion to `uint32_t` in the source). -/
def u32LEBytes (x : Nat) : List Nat :=
  [x % 256, x / 256 % 256, x / 65536 % 256, x / 16777216 % 256]

/-- The in-memory byte image of a `std::uint32_t` on the host: the
little-endian bytes, reversed on a big-endian host. -/
def u32SystemBytes (hostLittleEndian : Bool) (x : Nat) : List Nat :=
  if hostLittleEndian then u32LEBytes x else (u32LEBytes x).reverse

/-- The template instantiation `getBytesLE<std::uint32_t>(x)` from the
source: reinterpret the value as its system-order bytes, then reorder to
little-endian. -/
def getBytesLE32 (hostLittleEndian : Bool) (x : Nat) : List Nat :=
  getBytesLE hostLittleEndian (u32SystemBytes hostLittleEndian x)

/-- The fixed 12-byte CAPI public-RSA-key header from `RSA2CapiBlob`. -/
def rsa2CapiHeader : List Nat := [6, 2, 0, 0, 0, 164, 0, 0, 82, 83, 65, 49]

/-- `RSA2CapiBlob(modulus, exponent)` from the source: the fixed header,
the modulus bit length as a 4-byte little-endian `uint32_t`, then the
exponent bytes reversed, then the modulus bytes reversed. -/
def RSA2CapiBlob (hostLittleEndian : Bool) (modulus exponent : List Nat) : List Nat :=
  rsa2CapiHeader ++ getBytesLE32 hostLittleEndian (modulus.length * 8) ++
    exponent.reverse ++ modulus.reverse

/-! ## Base64 (`BytesToBase64` and the encoder used in `SignProof`) -/

/-- The base64 alphabet character at index `n` (`A`–`Z`, `a`–`z`, `0`–`9`,
`+`, `/`), as used by `Poco::Base64Encoder`. -/
def b64char (n : Nat) : Nat :=
  if n < 26 then 65 + n
  else if n < 52 then 97 + (n - 26)
  else if n < 62 then 48 + (n - 52)
  else if n = 62 then 43
  else 47

/-- Base64 encoding of a byte list, 3-byte groups to 4 characters with `=`
(61) padding, without line breaks. -/
def base64Groups : List Nat → List Nat
  | [] => []
  | [b0] => [b64char (b0 / 4), b64char (b0 % 4 * 16), 61, 61]
  | [b0, b1] => [b64char (b0 / 4), b64char (b0 % 4 * 16 + b1 / 16), b64char (b1 % 16 * 4), 61]
  | b0 :: b1 :: b2 :: rest =>
    b64char (b0 / 4) :: b64char (b0 % 4 * 16 + b1 / 16) ::
      b64char (b1 % 16 * 4 + b2 / 64) :: b64char (b2 % 64) :: base64Groups rest

/-- `Poco::Base64Encoder` line wrapping: a CR LF pair is emitted after
every 72 output characters (`cnt` counts characters on the current
line). -/
def wrap72Aux : Nat → List Nat → List Nat
  | _, [] => []
  | cnt, c :: rest =>
    if cnt + 1 = 72 then c :: 13 :: 10 :: wrap72Aux 0 rest
    else c :: wrap72Aux (cnt + 1) rest

/-- `Poco::OutputLineEndingConverter` with new-line text `""`: each CR LF
pair, lone CR, or lone LF in the input is replaced by the empty string. -/
def convLE : List Nat → List Nat
  | [] => []
  | [c] => if c = 13 ∨ c = 10 then [] else [c]
  | c :: d :: rest =>
    if c = 13 then
      if d = 10 then convLE rest else convLE (d :: rest)
    else if c = 10 then convLE (d :: rest)
    else c :: convLE (d :: rest)

/-- `BytesToBase64` from the source: base64-encode (with Poco's 72-column
CR LF wrapping) and strip the line endings through the converter. -/
def BytesToBase64 (bytes : List Nat) : List Nat := convLE (wrap72Aux 0 (base64Groups bytes))

/-! ## The Proof class -/

/-- `Proof::DotNetTicks`: nanoseconds since the Unix epoch, divided by 100
with C++ integer division (truncation toward zero, `Int.tdiv`), plus the
tick count of the Unix epoch since 0001-01-01.  The wall-clock instant is
represented by its signed nanosecond count since the Unix epoch, the value
of `duration_cast<nanoseconds>(utc - aUnxEpoch).count()`. -/
def DotNetTicks (ns : Int) : Int := Int.tdiv ns 100 + 621355968000000000

/-- `Proof::GetProof(access_token, uri, ticks)`: URL-decode the access
token, then write with a `NETWORK_BYTE_ORDER` `Poco::BinaryWriter`: the
decoded token length as `int32_t`, the decoded token as `std::string`
(which Poco serializes as a 7-bit encoded length followed by the raw
bytes), the URI length as `int32_t`, the URI as `std::string` (again
length-prefixed by Poco), the `int32_t` constant 8, and the `int64_t`
tick count.  `none` models the exception thrown by `Poco::URI::decode`
on a malformed token. -/
def GetProofBytes (access_token uri : List Nat) (ticks : Int) : Option (List Nat) :=
  match uriDecode access_token with
  | none => none
  | some decoded =>
    some (beBytes 4 decoded.length ++ write7Bit decoded.length ++ decoded ++
      beBytes 4 uri.length ++ write7Bit uri.length ++ uri ++
      beBytes 4 8 ++ int64BE ticks)

/-- The RSA key material held by `m_pKey` (`Poco::Crypto::RSAKey`):
`modulus()` and `encryptionExponent()` return the raw big-endian byte
sequences; `rsaSign` abstracts the RSA signing primitive applied by
`RSA_sign` to a digest (its output is the raw signature bytes). -/
structure RSAKeyModel where
  modulus : List Nat
  exponent : List Nat
  rsaSign : List Nat → List Nat

/-- State of the function-local `static Poco::Crypto::RSADigestEngine` in
`Proof::SignProof`: the data accumulated in the inner SHA-256 engine since
it was last finalized, and the digest and signature caches (`[]` models
the "empty, not yet computed" state, exactly the `empty()` tests in
Poco). -/
structure EngineState where
  engineData : List Nat
  digestCache : List Nat
  sigCache : List Nat

/-- The engine state after the static engine's construction, before the
first `SignProof` call. -/
def initEngineState : EngineState := ⟨[], [], []⟩

/-- `Proof::SignProof(proof)`: `update` appends the input to the inner
SHA-256 engine; `signature()` returns the cached signature if one was
already computed, otherwise computes the digest (itself cached; computing
it finalizes and resets the inner engine), signs it, caches and returns
it; the raw signature is then base64-encoded with line endings removed.
`sha256` abstracts the SHA-256 digest function.  Returns the encoded
signature and the engine state after the call. -/
def SignProof (sha256 : List Nat → List Nat) (key : RSAKeyModel) (st : EngineState)
    (proof : List Nat) : List Nat × EngineState :=
  let engineData := st.engineData ++ proof
  if st.sigCache = [] then
    let dig := if st.digestCache = [] then sha256 engineData else st.digestCache
    let engineData2 := if st.digestCache = [] then [] else engineData
    let sig := key.rsaSign dig
    (BytesToBase64 sig, ⟨engineData2, dig, sig⟩)
  else
    (BytesToBase64 st.sigCache, ⟨engineData, st.digestCache, st.sigCache⟩)

/-- `std::to_string` for a natural number: decimal digits, most significant
first (fuel-based; `fuel = n` suffices). -/
def natDecimalAux : Nat → Nat → List Nat
  | 0, n => [48 + n % 10]
  | fuel + 1, n => if n < 10 then [48 + n] else natDecimalAux fuel (n / 10) ++ [48 + n % 10]

/-- Decimal digit bytes of a natural number. -/
def natDecimalBytes (n : Nat) : List Nat := natDecimalAux n n

/-- `std::to_string(int64_t)`: decimal digits with a leading `-` (45) for
negative values. -/
def intDecimalBytes (i : Int) : List Nat :=
  if i < 0 then 45 :: natDecimalBytes i.natAbs else natDecimalBytes i.toNat

/-- Header name constant. -/
def wopiTimeStamp : String := "X-WOPI-TimeStamp"

/-- Header name constant. -/
def wopiProof : String := "X-WOPI-Proof"

/-- `Proof::GetProofHeaders(access_token, uri)`: with no key, the empty
vector; otherwise one tick value is derived from the wall clock and used
both as the decimal `X-WOPI-TimeStamp` value and inside the signed bytes
of `X-WOPI-Proof`.  `now_ns` is the wall-clock reading (nanoseconds since
the Unix epoch) taken by this call; the first component `none` models the
`URISyntaxException` escaping from `GetProof` (the partially filled vector
is discarded, and the signing engine is never reached). -/
def GetProofHeaders (sha256 : List Nat → List Nat) (key : Option RSAKeyModel)
    (st : EngineState) (access_token uri : List Nat) (now_ns : Int) :
    Option (List (String × List Nat)) × EngineState :=
  match key with
  | none => (some [], st)
  | some k =>
    let ticks := DotNetTicks now_ns
    match GetProofBytes access_token uri ticks with
    | none => (none, st)
    | some proofBytes =>
      let sigSt := SignProof sha256 k st proofBytes
      (some [(wopiTimeStamp, intDecimalBytes ticks), (wopiProof, sigSt.1)], sigSt.2)

/-! ## Key loading and the process-wide singleton -/

/-- Outcome of the `Poco::Crypto::RSAKey` construction attempt in the
`Proof` constructor: success, or one of the three kinds of thrown
exception distinguished by its catch clauses. -/
inductive KeyLoadOutcome where
  | ok : RSAKeyModel → KeyLoadOutcome
  | pocoException : KeyLoadOutcome
  | stdException : KeyLoadOutcome
  | otherException : KeyLoadOutcome

/-- The immediately-invoked lambda initializing `m_pKey`: a successful
load yields the key; every exception is caught (logged) and converted to
the null key.  The function is total: no exception escapes. -/
def loadProofKey : KeyLoadOutcome → Option RSAKeyModel
  | .ok k => some k
  | .pocoException => none
  | .stdException => none
  | .otherException => none

/-- The discovery attributes `m_aAttribs` built in the `Proof`
constructor: empty without a key; with a key, `value` (base64 of the CAPI
blob), `modulus` and `exponent` (base64 of the raw big-endian bytes), in
that order. -/
def proofAttribs (hostLittleEndian : Bool) : Option RSAKeyModel → List (String × List Nat)
  | none => []
  | some k =>
    [("value", BytesToBase64 (RSA2CapiBlob hostLittleEndian k.modulus k.exponent)),
     ("modulus", BytesToBase64 k.modulus),
     ("exponent", BytesToBase64 k.exponent)]

/-- A constructed `Proof` object: the loaded (or absent) key and the
attribute list computed once by the constructor. -/
structure ProofState where
  key : Option RSAKeyModel
  attribs : List (String × List Nat)

/-- The `Proof` constructor run on a given load outcome. -/
def mkProofState (hostLittleEndian : Bool) (outcome : KeyLoadOutcome) : ProofState :=
  ⟨loadProofKey outcome, proofAttribs hostLittleEndian (loadProofKey outcome)⟩

/-- One access to the function-local `static const Proof proof` in
`GetProof()`: if already constructed, return the cached object; otherwise
construct it from the current load outcome and cache it. -/
def getProofSingleton (hostLittleEndian : Bool) (cache : Option ProofState)
    (outcome : KeyLoadOutcome) : ProofState × Option ProofState :=
  match cache with
  | some p => (p, some p)
  | none => (mkProofState hostLittleEndian outcome, some (mkProofState hostLittleEndian outcome))

/-- A sequence of accesses to the singleton, each with the load outcome
that a construction attempt at that moment would produce (so a change of
the key file between calls is representable); returns the `Proof` object
seen by each access. -/
def runGetProofSingleton (hostLittleEndian : Bool) :
    Option ProofState → List KeyLoadOutcome → List ProofState
  | _, [] => []
  | cache, o :: os =>
    let pc := getProofSingleton hostLittleEndian cache o
    pc.1 :: runGetProofSingleton hostLittleEndian pc.2 os

/-! ## Concrete test data (used by counterexamples and witnesses) -/

/-- ASCII bytes of the access token `"abc"`. -/
def tokAbc : List Nat := [97, 98, 99]

/-- ASCII bytes of the URI `"http://x/y"` (10 bytes). -/
def uriXY : List Nat := [104, 116, 116, 112, 58, 47, 47, 120, 47, 121]

/-- ASCII bytes of the url-encoded access token `"tok%20en"`. -/
def tokPctEn : List Nat := [116, 111, 107, 37, 50, 48, 101, 110]

/-- ASCII bytes of the URI `"https://host/wopi/files/1"` (25 bytes). -/
def uriWopi : List Nat :=
  [104, 116, 116, 112, 115, 58, 47, 47, 104, 111, 115, 116, 47,
   119, 111, 112, 105, 47, 102, 105, 108, 101, 115, 47, 49]

/-- A concrete stand-in for the SHA-256 function, used only to instantiate
abstract-hash theorems at a computable point. -/
def shaTest : List Nat → List Nat := fun l => [l.length % 256]

/-- A concrete key model with a never-empty signing function, used only to
instantiate theorems at a computable point. -/
def keyTest : RSAKeyModel := ⟨[1, 2], [1, 0, 1], fun d => 9 :: d⟩

example : uriDecode tokAbc = some tokAbc := by decide
example : uriDecode tokPctEn = some [116, 111, 107, 32, 101, 110] := by decide
example : uriDecode [37] = none := by decide
example : BytesToBase64 [97, 98, 99] = [89, 87, 74, 106] := by decide
example : write7Bit 0 = [0] := by decide
example : write7Bit 300 = [172, 2] := by decide
example : (GetProofBytes tokAbc uriXY 0).map List.length = some 35 := by decide

/-! ## Helper lemmas -/

/-- Spec-side big-endian decoder for a 4-byte sequence (used to state the
"first 4 bytes big-endian-decode to ..." parts of the specification). -/
def decodeBE32 : List Nat → Nat
  | [a, b, c, d] => ((a * 256 + b) * 256 + c) * 256 + d
  | _ => 0

/-- Spec-side little-endian decoder for a 4-byte sequence (used to state
the "bytes 12-15 little-endian-decode to ..." part of the
specification). -/
def decodeLE32 : List Nat → Nat
  | [a, b, c, d] => a + 256 * (b + 256 * (c + 256 * d))
  | _ => 0

theorem beBytes_length (w : Nat) : ∀ x, (beBytes w x).length = w := by
  induction w with
  | zero => intro x; rfl
  | succ n ih => intro x; simp [beBytes, ih]

theorem beBytes_four (x : Nat) :
    beBytes 4 x = [x / 16777216 % 256, x / 65536 % 256, x / 256 % 256, x % 256] := by
  simp [beBytes, Nat.div_div_eq_div_mul]

theorem decodeBE32_beBytes (x : Nat) : decodeBE32 (beBytes 4 x) = x % 4294967296 := by
  rw [beBytes_four]
  show ((x / 16777216 % 256 * 256 + x / 65536 % 256) * 256 + x / 256 % 256) * 256 + x % 256 =
    x % 4294967296
  omega

theorem take_append_of_length {α : Type} (l1 l2 : List α) (n : Nat) (h : l1.length = n) :
    (l1 ++ l2).take n = l1 := by
  subst h
  exact List.take_left l1 l2

theorem drop_append_of_length {α : Type} (l1 l2 : List α) (n : Nat) (h : l1.length = n) :
    (l1 ++ l2).drop n = l2 := by
  subst h
  exact List.drop_left l1 l2

theorem getBytesLE32_eq (hostLittleEndian : Bool) (x : Nat) :
    getBytesLE32 hostLittleEndian x = u32LEBytes x := by
  cases hostLittleEndian <;> simp [getBytesLE32, getBytesLE, u32SystemBytes]

theorem u32LEBytes_length (x : Nat) : (u32LEBytes x).length = 4 := by
  simp [u32LEBytes]

theorem decodeLE32_u32LEBytes (x : Nat) : decodeLE32 (u32LEBytes x) = x % 4294967296 := by
  show x % 256 + 256 * (x / 256 % 256 + 256 * (x / 65536 % 256 + 256 * (x / 16777216 % 256))) =
    x % 4294967296
  omega

theorem rsa2CapiBlob_unfold (hostLittleEndian : Bool) (modulus exponent : List Nat) :
    RSA2CapiBlob hostLittleEndian modulus exponent =
      rsa2CapiHeader ++ u32LEBytes (modulus.length * 8) ++ exponent.reverse ++ modulus.reverse := by
  rw [RSA2CapiBlob, getBytesLE32_eq]

theorem rsa2CapiBlob_bitfield (hostLittleEndian : Bool) (modulus exponent : List Nat) :
    ((RSA2CapiBlob hostLittleEndian modulus exponent).drop 12).take 4 =
      u32LEBytes (modulus.length * 8) := by
  rw [rsa2CapiBlob_unfold, List.append_assoc, List.append_assoc,
    drop_append_of_length rsa2CapiHeader _ 12 (by rfl),
    take_append_of_length _ _ 4 (u32LEBytes_length _)]

theorem convLE_no_crlf (l : List Nat) :
    (convLE l).all (fun c => !(c == 13) && !(c == 10)) = true := by
  induction l using convLE.induct <;>
    simp only [convLE] <;>
    (try split) <;> (try split) <;> simp_all

theorem bytesToBase64_no_crlf (bytes : List Nat) :
    (BytesToBase64 bytes).all (fun c => !(c == 13) && !(c == 10)) = true :=
  convLE_no_crlf _

theorem tdiv_eq_cases (a : Int) : Int.tdiv a 100 = if 0 ≤ a then a / 100 else -(-a / 100) := by
  rcases le_or_lt 0 a with h | h
  · rw [if_pos h, Int.tdiv_eq_ediv h (by omega)]
  · rw [if_neg (by omega)]
    have h1 : (-a).tdiv 100 = -a / 100 := Int.tdiv_eq_ediv (by omega) (by omega)
    have h2 : (-a).tdiv 100 = -(a.tdiv 100) := Int.neg_tdiv a 100
    omega

theorem tdiv100_mono {a b : Int} (h : a ≤ b) : Int.tdiv a 100 ≤ Int.tdiv b 100 := by
  rw [tdiv_eq_cases, tdiv_eq_cases]
  split <;> split <;> omega

theorem runGetProofSingleton_cached (hostLittleEndian : Bool) (p : ProofState) :
    ∀ os : List KeyLoadOutcome,
      runGetProofSingleton hostLittleEndian (some p) os = List.replicate os.length p := by
  intro os
  induction os with
  | nil => rfl
  | cons o os ih => simp [runGetProofSingleton, getProofSingleton, ih, List.replicate_succ]

theorem runGetProofSingleton_fresh (hostLittleEndian : Bool) (o : KeyLoadOutcome)
    (os : List KeyLoadOutcome) :
    runGetProofSingleton hostLittleEndian none (o :: os) =
      List.replicate (os.length + 1) (mkProofState hostLittleEndian o) := by
  simp [runGetProofSingleton, getProofSingleton, runGetProofSingleton_cached,
    List.replicate_succ]

theorem int64BE_length (t : Int) : (int64BE t).length = 8 := beBytes_length 8 _

theorem drop_sub_eight {l1 l2 : List Nat} (h : l2.length = 8) :
    (l1 ++ l2).drop ((l1 ++ l2).length - 8) = l2 := by
  have hlen : (l1 ++ l2).length = l1.length + 8 := by simp [h]
  rw [hlen, Nat.add_sub_cancel]
  exact List.drop_left l1 l2

theorem signProof_fst_eq (sha256 : List Nat → List Nat) (key : RSAKeyModel) (st : EngineState)
    (pf : List Nat) :
    (SignProof sha256 key st pf).1 =
      BytesToBase64 (if st.sigCache = []
        then key.rsaSign
          (if st.digestCache = [] then sha256 (st.engineData ++ pf) else st.digestCache)
        else st.sigCache) := by
  by_cases h : st.sigCache = [] <;> simp [SignProof, h]

/-! ## Claim theorems -/

/-- C2, counterexample: the claim "bytes 12-15 little-endian-decode to
`len(M)*8`" fails for a modulus of `2^29` bytes, where `len(M)*8 = 2^32`
is truncated to 0 by the conversion to `uint32_t` in
`getBytesLE<std::uint32_t>(modulus.size() * 8)`. -/
theorem rsa2CapiBlob_claim2_counterexample :
    decodeLE32 (((RSA2CapiBlob true (List.replicate 536870912 0) []).drop 12).take 4) = 0 ∧
    (List.replicate 536870912 (0 : Nat)).length * 8 = 4294967296 := by
  constructor
  · rw [rsa2CapiBlob_bitfield, List.length_replicate]
    decide
  · rw [List.length_replicate]

/-- C2 (amended): for every modulus `M` and exponent `E`,
`buildPublicKeyBlob` (`RSA2CapiBlob`) is the fixed 12-byte header, 4 bytes
little-endian-decoding to `len(M)*8` taken mod `2^32` (equal to `len(M)*8`
whenever that fits in 32 bits), the reversed exponent and the reversed
modulus, with total length `16 + len(E) + len(M)`, independent of the host
byte order. -/
theorem rsa2CapiBlob_layout (hostLittleEndian : Bool) (modulus exponent : List Nat) :
    RSA2CapiBlob hostLittleEndian modulus exponent =
      rsa2CapiHeader ++ u32LEBytes (modulus.length * 8) ++
        exponent.reverse ++ modulus.reverse ∧
    (RSA2CapiBlob hostLittleEndian modulus exponent).length =
      16 + exponent.length + modulus.length ∧
    RSA2CapiBlob hostLittleEndian modulus exponent = RSA2CapiBlob true modulus exponent ∧
    (RSA2CapiBlob hostLittleEndian modulus exponent).take 12 = rsa2CapiHeader ∧
    decodeLE32 (((RSA2CapiBlob hostLittleEndian modulus exponent).drop 12).take 4) =
      modulus.length * 8 % 4294967296 := by
  refine ⟨rsa2CapiBlob_unfold hostLittleEndian modulus exponent, ?_, ?_, ?_, ?_⟩
  · rw [rsa2CapiBlob_unfold]
    simp [rsa2CapiHeader, u32LEBytes]
    omega
  · rw [rsa2CapiBlob_unfold, rsa2CapiBlob_unfold]
  · rw [rsa2CapiBlob_unfold, List.append_assoc, List.append_assoc,
      take_append_of_length rsa2CapiHeader _ 12 (by rfl)]
  · rw [rsa2CapiBlob_bitfield, decodeLE32_u32LEBytes]

/-- C3: `ticksSinceEpoch` (`Proof::DotNetTicks`) is exact integer
arithmetic: nanoseconds since the Unix epoch divided by 100 (C++ integer
division) plus `621355968000000000`; at the Unix epoch it is exactly that
constant, and it is monotone in the instant. -/
theorem dotNetTicks_spec :
    DotNetTicks 0 = 621355968000000000 ∧
    (∀ ns : Int, DotNetTicks ns = Int.tdiv ns 100 + 621355968000000000) ∧
    ∀ t1 t2 : Int, t1 ≤ t2 → DotNetTicks t1 ≤ DotNetTicks t2 := by
  refine ⟨by decide, fun ns => rfl, fun t1 t2 h => ?_⟩
  have hm := tdiv100_mono h
  simp only [DotNetTicks]
  omega

/-- Witness for C3 at concrete instants. -/
theorem dotNetTicks_spec_witness :
    DotNetTicks 0 = 621355968000000000 ∧ DotNetTicks 250 ≤ DotNetTicks 90000 :=
  ⟨dotNetTicks_spec.1, dotNetTicks_spec.2.2 250 90000 (by decide)⟩

/-- C7: the base64 output of `BytesToBase64` and of `Proof::SignProof`
contains no carriage-return (13) or line-feed (10) byte, for every input
and every hash/signing function. -/
theorem base64_no_crlf (bytes : List Nat) (sha256 : List Nat → List Nat)
    (key : RSAKeyModel) (st : EngineState) (pf : List Nat) :
    (BytesToBase64 bytes).all (fun c => !(c == 13) && !(c == 10)) = true ∧
    ((SignProof sha256 key st pf).1).all (fun c => !(c == 13) && !(c == 10)) = true := by
  refine ⟨bytesToBase64_no_crlf bytes, ?_⟩
  rw [signProof_fst_eq]
  exact bytesToBase64_no_crlf _

/-- C8: every key-load failure (each catch clause of the `Proof`
constructor) yields the no-key state instead of a propagated exception
(`loadProofKey` is total), and the `static const Proof` singleton is
constructed from the first access's load outcome only: every access in a
sequence returns that first constructed object, and later outcomes are
never consulted. -/
theorem proofKey_load_once :
    (loadProofKey .pocoException = none ∧ loadProofKey .stdException = none ∧
      loadProofKey .otherException = none ∧ ∀ k, loadProofKey (.ok k) = some k) ∧
    ∀ (hostLittleEndian : Bool) (o : KeyLoadOutcome) (os : List KeyLoadOutcome),
      runGetProofSingleton hostLittleEndian none (o :: os) =
        List.replicate (os.length + 1) (mkProofState hostLittleEndian o) :=
  ⟨⟨rfl, rfl, rfl, fun _ => rfl⟩, runGetProofSingleton_fresh⟩

/-- C9: the discovery attributes are exactly `value`, `modulus`,
`exponent` in that order (with the documented base64 payloads) when a key
is present, empty when absent, and every access to the singleton returns
the attribute list computed at the one-time construction. -/
theorem proofKeyAttributes_spec :
    (∀ (hostLittleEndian : Bool) (k : RSAKeyModel),
      proofAttribs hostLittleEndian (some k) =
        [("value", BytesToBase64 (RSA2CapiBlob hostLittleEndian k.modulus k.exponent)),
         ("modulus", BytesToBase64 k.modulus),
         ("exponent", BytesToBase64 k.exponent)]) ∧
    (∀ hostLittleEndian : Bool, proofAttribs hostLittleEndian none = []) ∧
    ∀ (hostLittleEndian : Bool) (o : KeyLoadOutcome) (os : List KeyLoadOutcome),
      (runGetProofSingleton hostLittleEndian none (o :: os)).map ProofState.attribs =
        List.replicate (os.length + 1) (proofAttribs hostLittleEndian (loadProofKey o)) := by
  refine ⟨fun _ _ => rfl, fun _ => rfl, fun hostLE o os => ?_⟩
  rw [runGetProofSingleton_fresh]
  simp [mkProofState, List.map_replicate]

/-- C1, counterexample: the claimed payload sizes fail on the code.
`Poco::BinaryWriter` serializes each `std::string` with a 7-bit encoded
length prefix, so for token `"abc"` and uri `"http://x/y"` the payload has
35 bytes, not the claimed 33 (the code's own
`assert(buffer.size() == size)` expects 33 as well); for token
`"tok%20en"` and uri `"https://host/wopi/files/1"` (25 bytes, not the 26
assumed by the claim) with the given tick value it has 53 bytes, not
52. -/
theorem getProof_claim1_counterexample :
    (GetProofBytes tokAbc uriXY 0).map List.length = some 35 ∧
    (GetProofBytes tokPctEn uriWopi 637000000000000000).map List.length = some 53 := by
  constructor <;> decide

/-- C1 (amended): for every percent-encoded token decoding to `d` and
every URI, with both lengths within `int32_t` range, the payload is the
big-endian concatenation of the 4-byte decoded-token length, a 7-bit
encoded copy of that length (Poco's string serialization), the decoded
token, the 4-byte URI length, a 7-bit encoded copy of it, the URI, the
4-byte constant 8 and the 8-byte tick value; its first 4 bytes big-endian
decode to the decoded-token length, and its total length is 20 bytes plus
the token, URI and the two 7-bit length prefixes. -/
theorem getProof_layout (tok uri : List Nat) (ticks : Int) (d : List Nat)
    (hdec : uriDecode tok = some d)
    (hd : d.length < 2147483648) (_hu : uri.length < 2147483648) :
    ∃ payload : List Nat,
      GetProofBytes tok uri ticks = some payload ∧
      payload = beBytes 4 d.length ++ write7Bit d.length ++ d ++
        beBytes 4 uri.length ++ write7Bit uri.length ++ uri ++
        beBytes 4 8 ++ int64BE ticks ∧
      payload.take 4 = beBytes 4 d.length ∧
      decodeBE32 (payload.take 4) = d.length ∧
      payload.length = 20 + (write7Bit d.length).length + d.length +
        (write7Bit uri.length).length + uri.length := by
  have h4 : (beBytes 4 d.length ++ write7Bit d.length ++ d ++
      beBytes 4 uri.length ++ write7Bit uri.length ++ uri ++
      beBytes 4 8 ++ int64BE ticks).take 4 = beBytes 4 d.length := by
    simp only [List.append_assoc]
    exact take_append_of_length _ _ 4 (beBytes_length 4 _)
  refine ⟨beBytes 4 d.length ++ write7Bit d.length ++ d ++
    beBytes 4 uri.length ++ write7Bit uri.length ++ uri ++
    beBytes 4 8 ++ int64BE ticks, ?_, rfl, h4, ?_, ?_⟩
  · simp [GetProofBytes, hdec]
  · rw [h4, decodeBE32_beBytes, Nat.mod_eq_of_lt (by omega)]
  · simp [List.length_append, beBytes_length, int64BE_length]
    omega

/-- Witness for C1 (amended) at token `"a"`, uri `"x"`, ticks 5. -/
theorem getProof_layout_witness :
    ∃ payload : List Nat,
      GetProofBytes [97] [120] 5 = some payload ∧
      payload = beBytes 4 ([97] : List Nat).length ++ write7Bit ([97] : List Nat).length ++
        [97] ++ beBytes 4 ([120] : List Nat).length ++ write7Bit ([120] : List Nat).length ++
        [120] ++ beBytes 4 8 ++ int64BE 5 ∧
      payload.take 4 = beBytes 4 ([97] : List Nat).length ∧
      decodeBE32 (payload.take 4) = ([97] : List Nat).length ∧
      payload.length = 20 + (write7Bit ([97] : List Nat).length).length +
        ([97] : List Nat).length + (write7Bit ([120] : List Nat).length).length +
        ([120] : List Nat).length :=
  getProof_layout [97] [120] 5 [97] (by decide) (by decide) (by decide)

/-- C10: the URI is embedded in the signed payload byte-for-byte as given
(no percent-decoding is applied to it); only the access token is
URL-decoded. -/
theorem getProof_uri_verbatim (tok uri : List Nat) (ticks : Int) (d : List Nat)
    (hdec : uriDecode tok = some d) :
    ∃ pre post : List Nat,
      GetProofBytes tok uri ticks = some (pre ++ uri ++ post) ∧
      pre = beBytes 4 d.length ++ write7Bit d.length ++ d ++
        beBytes 4 uri.length ++ write7Bit uri.length ∧
      post = beBytes 4 8 ++ int64BE ticks := by
  refine ⟨_, _, ?_, rfl, rfl⟩
  simp [GetProofBytes, hdec, List.append_assoc]

/-- Witness for C10 at a URI containing the percent escape `"%41"`: the
escaped form appears verbatim in the payload. -/
theorem getProof_uri_verbatim_witness :
    ∃ pre post : List Nat,
      GetProofBytes [97] [37, 52, 49] 9 = some (pre ++ [37, 52, 49] ++ post) ∧
      pre = beBytes 4 ([97] : List Nat).length ++ write7Bit ([97] : List Nat).length ++ [97] ++
        beBytes 4 ([37, 52, 49] : List Nat).length ++
        write7Bit ([37, 52, 49] : List Nat).length ∧
      post = beBytes 4 8 ++ int64BE 9 :=
  getProof_uri_verbatim [97] [37, 52, 49] 9 [97] (by decide)

/-- C4: in one `GetProofHeaders` call with a key loaded, a single tick
value is both rendered as the decimal `X-WOPI-TimeStamp` value and
embedded (big-endian) as the final 8 bytes of the byte string handed to
`SignProof` for `X-WOPI-Proof`. -/
theorem getProofHeaders_tick_consistent (sha256 : List Nat → List Nat) (k : RSAKeyModel)
    (st : EngineState) (tok uri d : List Nat) (now_ns : Int)
    (hdec : uriDecode tok = some d) :
    ∃ (t : Int) (pb : List Nat),
      t = DotNetTicks now_ns ∧
      GetProofHeaders sha256 (some k) st tok uri now_ns =
        (some [(wopiTimeStamp, intDecimalBytes t), (wopiProof, (SignProof sha256 k st pb).1)],
          (SignProof sha256 k st pb).2) ∧
      pb.drop (pb.length - 8) = int64BE t := by
  refine ⟨DotNetTicks now_ns,
    beBytes 4 d.length ++ write7Bit d.length ++ d ++ beBytes 4 uri.length ++
      write7Bit uri.length ++ uri ++ beBytes 4 8 ++ int64BE (DotNetTicks now_ns),
    rfl, ?_, ?_⟩
  · simp [GetProofHeaders, GetProofBytes, hdec]
  · exact drop_sub_eight (int64BE_length _)

/-- Witness for C4 at concrete inputs. -/
theorem getProofHeaders_tick_consistent_witness :
    ∃ (t : Int) (pb : List Nat),
      t = DotNetTicks 1000 ∧
      GetProofHeaders shaTest (some keyTest) initEngineState [97] [120] 1000 =
        (some [(wopiTimeStamp, intDecimalBytes t),
          (wopiProof, (SignProof shaTest keyTest initEngineState pb).1)],
          (SignProof shaTest keyTest initEngineState pb).2) ∧
      pb.drop (pb.length - 8) = int64BE t :=
  getProofHeaders_tick_consistent shaTest keyTest initEngineState [97] [120] [97] 1000
    (by decide)

/-- C5, counterexample: with a key loaded but the access token `"%"` (a
malformed percent escape), `Poco::URI::decode` throws inside
`GetProofHeaders`, so the call does not return two header pairs — the
claim quantified over every access token fails. -/
theorem getProofHeaders_claim5_counterexample :
    (GetProofHeaders shaTest (some keyTest) initEngineState [37] [] 0).1 = none := by decide

/-- C5 (amended): with a key loaded and a well-formed percent-encoded
access token, `GetProofHeaders` returns exactly two pairs, in order
`X-WOPI-TimeStamp` (decimal ticks) then `X-WOPI-Proof` (the base64
signature); with no key loaded it returns the empty list without touching
the signing engine. -/
theorem getProofHeaders_shape (sha256 : List Nat → List Nat) (k : RSAKeyModel)
    (st : EngineState) (tok uri d : List Nat) (now_ns : Int)
    (hdec : uriDecode tok = some d) :
    (∃ (sig : List Nat) (st2 : EngineState),
      GetProofHeaders sha256 (some k) st tok uri now_ns =
        (some [(wopiTimeStamp, intDecimalBytes (DotNetTicks now_ns)), (wopiProof, sig)],
          st2)) ∧
    ∀ (st2 : EngineState) (tok2 uri2 : List Nat) (t2 : Int),
      GetProofHeaders sha256 none st2 tok2 uri2 t2 = (some [], st2) := by
  constructor
  · refine ⟨(SignProof sha256 k st (beBytes 4 d.length ++ write7Bit d.length ++ d ++
      beBytes 4 uri.length ++ write7Bit uri.length ++ uri ++ beBytes 4 8 ++
      int64BE (DotNetTicks now_ns))).1,
      (SignProof sha256 k st (beBytes 4 d.length ++ write7Bit d.length ++ d ++
      beBytes 4 uri.length ++ write7Bit uri.length ++ uri ++ beBytes 4 8 ++
      int64BE (DotNetTicks now_ns))).2, ?_⟩
    simp [GetProofHeaders, GetProofBytes, hdec]
  · intro st2 tok2 uri2 t2
    rfl

/-- Witness for C5 (amended) at concrete inputs. -/
theorem getProofHeaders_shape_witness :
    (∃ (sig : List Nat) (st2 : EngineState),
      GetProofHeaders shaTest (some keyTest) initEngineState [97] [120] 42 =
        (some [(wopiTimeStamp, intDecimalBytes (DotNetTicks 42)), (wopiProof, sig)], st2)) ∧
    ∀ (st2 : EngineState) (tok2 uri2 : List Nat) (t2 : Int),
      GetProofHeaders shaTest none st2 tok2 uri2 t2 = (some [], st2) :=
  getProofHeaders_shape shaTest keyTest initEngineState [97] [120] [97] 42 (by decide)

/-- C6: the claim "flipping a byte of the input changes the signature"
fails on the code.  `Proof::SignProof` uses a function-local `static`
`Poco::Crypto::RSADigestEngine` whose signature cache is filled on the
first call and never cleared, so a second call — with any different input
— returns the first call's signature unchanged.  This holds for every
hash function and every signing function whose output is nonempty (as a
real RSA signature always is). -/
theorem signProof_second_call_returns_first (sha256 : List Nat → List Nat) (key : RSAKeyModel)
    (b1 b2 : List Nat) (hne : key.rsaSign (sha256 b1) ≠ []) :
    (SignProof sha256 key (SignProof sha256 key initEngineState b1).2 b2).1 =
      (SignProof sha256 key initEngineState b1).1 := by
  simp [SignProof, initEngineState, hne]

/-- Witness for C6: two calls with the different inputs `[97]` and `[98]`
return the same encoded signature. -/
theorem signProof_second_call_returns_first_witness :
    (SignProof shaTest keyTest (SignProof shaTest keyTest initEngineState [97]).2 [98]).1 =
      (SignProof shaTest keyTest initEngineState [97]).1 :=
  signProof_second_call_returns_first shaTest keyTest [97] [98] (by decide)
